import Mathlib

/-!
# Verification of the music-theory core (`build_scale`, `generate_chords`, `generate_melody`)

Shallow embedding of the theory helpers of `src/main.py` of the backend
repository.  Python strings become `String`, Python lists become `List`,
float beat durations become `Rat` (all duration values are dyadic and exact),
and fallible Python operations (`list.index`, list subscripting, tuple
unpacking of `str.split`) are modelled in the `Except String` monad so that
the reachability of error branches can be stated and settled.

The process-global `random` source of `generate_melody` is modelled as a
stream `g : Nat → Nat` of raw draws together with a cursor; each
`random.choice(seq)` consumes one draw and selects `seq[draw % len(seq)]`.
-/

instance {ε α : Type} [DecidableEq ε] [DecidableEq α] : DecidableEq (Except ε α) := fun a b =>
  match a, b with
  | .ok x, .ok y =>
    if h : x = y then .isTrue (congrArg Except.ok h)
    else .isFalse (fun hc => h (Except.ok.inj hc))
  | .error x, .error y =>
    if h : x = y then .isTrue (congrArg Except.error h)
    else .isFalse (fun hc => h (Except.error.inj hc))
  | .ok _, .error _ => .isFalse (fun hc => Except.noConfusion hc)
  | .error _, .ok _ => .isFalse (fun hc => Except.noConfusion hc)

/-- The 12 sharp-spelled pitch-class names, `NOTES_SHARP` in `src/main.py`. -/
def NOTES_SHARP : List String :=
  ["C", "C#", "D", "D#", "E", "F"] ++ ["F#", "G", "G#", "A", "A#", "B"]

/-- Accumulator pass for `pySplit`: `cur` holds the reversed characters of
the token currently being read. -/
def splitWsAux : List Char → List Char → List String
  | [], cur => if cur = [] then [] else [String.mk cur.reverse]
  | c :: rest, cur =>
    if c.isWhitespace then
      (if cur = [] then splitWsAux rest []
       else String.mk cur.reverse :: splitWsAux rest [])
    else splitWsAux rest (c :: cur)

/-- Python `str.split()` with no separator: split on whitespace runs,
discarding empty fragments. -/
def pySplit (s : String) : List String := splitWsAux s.data []

/-- Python `str.lower()` (ASCII case folding, which covers every string the
program compares). -/
def pyLower (s : String) : String := String.mk (s.data.map Char.toLower)

/-- Python `str.startswith(p)`. -/
def pyStartsWith (s p : String) : Bool := p.data.isPrefixOf s.data

/-- The `try: tonic, quality = key.split() except ValueError: tonic, quality
= key, "Major"` prelude of `build_scale`: unpacking succeeds exactly when the
split yields two tokens; otherwise the whole key becomes the tonic and the
quality defaults to `"Major"`. -/
def parseKey (key : String) : String × String :=
  match pySplit key with
  | [t, q] => (t, q)
  | _ => (key, "Major")

/-- `major_steps = [2, 2, 1, 2, 2, 2, 1]` in `build_scale`. -/
def major_steps : List Nat := [2, 2, 1, 2, 2, 2, 1]

/-- `minor_steps = [2, 1, 2, 2, 1, 2, 2]` in `build_scale`. -/
def minor_steps : List Nat := [2, 1, 2, 2, 1, 2, 2]

/-- Python `list.index`: first index of `x` in `l`, raising `ValueError`
when `x` is absent. -/
def pyIndex (l : List String) (x : String) : Except String Nat :=
  if x ∈ l then .ok (l.indexOf x) else .error "ValueError"

/-- Python list subscripting `l[i]` for a natural index: raises `IndexError`
out of range. -/
def pyGet (l : List String) (i : Nat) : Except String String :=
  match l.get? i with
  | some v => .ok v
  | none => .error "IndexError"

/-- The `for s in steps[:-1]` loop of `build_scale`: advance the index by
each step modulo 12 and append the pitch name at the new index. -/
def scaleLoop (idx : Nat) (steps : List Nat) (acc : List String) :
    Except String (List String) :=
  match steps with
  | [] => .ok acc
  | s :: rest =>
    let idx2 := (idx + s) % 12
    (pyGet NOTES_SHARP idx2).bind fun note =>
      scaleLoop idx2 rest (acc ++ [note])

/-- The `if tonic not in NOTES_SHARP: tonic = "C"` normalisation of
`build_scale`. -/
def normTonic (tonic0 : String) : String :=
  if tonic0 ∈ NOTES_SHARP then tonic0 else "C"

/-- The `steps = major_steps if quality.lower().startswith("maj") else
minor_steps` selection of `build_scale`. -/
def chooseSteps (quality : String) : List Nat :=
  if pyStartsWith (pyLower quality) "maj" then major_steps else minor_steps

/-- Body of `build_scale` after the key has been unpacked into `tonic0`
(raw tonic token) and `quality`:  normalise an unknown tonic to `"C"`,
choose the step pattern by the case-insensitive `"maj"` test on the
quality, look the tonic up in the pitch space and walk `steps[:-1]`. -/
def build_scale_core (tonic0 quality : String) : Except String (List String) :=
  (pyIndex NOTES_SHARP (normTonic tonic0)).bind fun idx =>
    scaleLoop idx (chooseSteps quality).dropLast [normTonic tonic0]

/-- `build_scale` of `src/main.py`. -/
def build_scale (key : String) : Except String (List String) :=
  build_scale_core (parseKey key).1 (parseKey key).2

/-- The list comprehension of `generate_chords`: label each degree `d` of
`degrees` with `scale[d]`, suffixed `"m"` unless `d in [0, 3, 4]`. -/
def chordLabels (scale : List String) : List Nat → Except String (List String)
  | [] => .ok []
  | d :: rest =>
    (pyGet scale d).bind fun n =>
      (chordLabels scale rest).map fun tail =>
        (n ++ (if d ∈ ([0, 3, 4] : List Nat) then "" else "m")) :: tail

/-- The JSON object returned by `generate_chords`. -/
structure ChordsResponse where
  key : String
  progression : List String
deriving DecidableEq

/-- `generate_chords` of `src/main.py`: derive the scale, take degrees
`[0, 5, 3, 4]`, echo the input key. -/
def generate_chords (key : String) : Except String ChordsResponse :=
  (build_scale key).bind fun scale =>
    (chordLabels scale [0, 5, 3, 4]).map fun prog => ⟨key, prog⟩

/-- One `{"note": ..., "duration": ...}` entry of a melody. -/
structure NoteEvent where
  note : String
  duration : Rat
deriving DecidableEq

/-- The JSON object returned by `generate_melody`. -/
structure MelodyResponse where
  key : String
  bpm : Nat
  melody : List NoteEvent
deriving DecidableEq

/-- The literal `[0.5, 1.0, 1.0, 2.0]` duration pool of `generate_melody`
(`1.0` appears twice, doubling its weight). -/
def durationChoices : List Rat := [0.5, 1.0, 1.0, 2.0]

/-- The literal `[4, 5]` octave pool of `generate_melody`. -/
def octaveChoices : List Nat := [4, 5]

/-- The note loop of `generate_melody`; `g` is the stream of raw random
draws and `pos` the cursor into it: each iteration consumes three draws, in
the order the Python body calls `random.choice` (scale member, duration,
octave). -/
def melodyLoop (scale : List String) (g : Nat → Nat) :
    Nat → Nat → List NoteEvent
  | 0, _ => []
  | k + 1, pos =>
    let n := scale.getD (g pos % scale.length) ""
    let dur := durationChoices.getD (g (pos + 1) % durationChoices.length) 0
    let oct := octaveChoices.getD (g (pos + 2) % octaveChoices.length) 0
    ⟨n ++ toString oct, dur⟩ :: melodyLoop scale g k (pos + 3)

/-- `generate_melody` of `src/main.py`: derive the scale, then sample
`bars * 4` notes; `key` and `bpm` are echoed into the response. -/
def generate_melody (key : String) (bars : Nat) (bpm : Nat) (g : Nat → Nat) :
    Except String MelodyResponse :=
  (build_scale key).map fun scale => ⟨key, bpm, melodyLoop scale g (bars * 4) 0⟩

/-- Total form of the `build_scale` walk: the pitch names visited by
advancing the index modulo 12 through `steps`. -/
def walkNotes (idx : Nat) : List Nat → List String
  | [] => []
  | s :: rest =>
    let j := (idx + s) % 12
    NOTES_SHARP.getD j "" :: walkNotes j rest

/-- Total form of `build_scale_core`; `build_scale_core_eq` proves the
fallible embedding always succeeds with this value. -/
def total_scale_core (tonic0 quality : String) : List String :=
  normTonic tonic0 ::
    walkNotes (NOTES_SHARP.indexOf (normTonic tonic0)) (chooseSteps quality).dropLast

/-- Total form of `build_scale`. -/
def totalScale (key : String) : List String :=
  total_scale_core (parseKey key).1 (parseKey key).2

/-- Claim-side walk, written from the words of the specification: "starting
at the tonic's index in the 12-note sharp-spelled pitch space, walk the
steps modulo 12, appending the resulting pitch name at each step". -/
def walkC1 (idx : Nat) : List Nat → List String
  | [] => []
  | s :: rest =>
    let j := (idx + s) % 12
    NOTES_SHARP.getD j "" :: walkC1 j rest

/-- Claim-side scale for a valid tonic, written from the words of the
specification: the major step pattern `[2,2,1,2,2,2,1]` when the quality,
lowercased, starts with `"maj"`, else the minor pattern `[2,1,2,2,1,2,2]`;
walk the first six steps; the tonic sits at position 0. -/
def scaleC1 (tonic quality : String) : List String :=
  let steps := if pyStartsWith (pyLower quality) "maj"
    then [2, 2, 1, 2, 2, 2, 1] else [2, 1, 2, 2, 1, 2, 2]
  tonic :: walkC1 (NOTES_SHARP.indexOf tonic) (steps.take 6)

theorem normTonic_mem (t : String) : normTonic t ∈ NOTES_SHARP := by
  unfold normTonic
  split
  · assumption
  · decide

theorem pyGet_ok (l : List String) (i : Nat) (h : i < l.length) :
    pyGet l i = .ok (l.getD i "") := by
  unfold pyGet
  rw [List.get?_eq_getElem?, List.getElem?_eq_getElem h, List.getD_eq_getElem l "" h]

theorem scaleLoop_eq (steps : List Nat) (idx : Nat) (acc : List String) :
    scaleLoop idx steps acc = .ok (acc ++ walkNotes idx steps) := by
  induction steps generalizing idx acc with
  | nil => simp [scaleLoop, walkNotes]
  | cons s rest ih =>
    have hlt : (idx + s) % 12 < NOTES_SHARP.length := by
      have h12 : (idx + s) % 12 < 12 := Nat.mod_lt _ (by omega)
      simpa [NOTES_SHARP] using h12
    simp [scaleLoop, walkNotes, pyGet_ok _ _ hlt, Except.bind, ih]

theorem build_scale_core_eq (t q : String) :
    build_scale_core t q = .ok (total_scale_core t q) := by
  unfold build_scale_core
  rw [pyIndex, if_pos (normTonic_mem t)]
  exact scaleLoop_eq ..

theorem build_scale_eq (key : String) :
    build_scale key = .ok (totalScale key) :=
  build_scale_core_eq (parseKey key).1 (parseKey key).2

theorem walkNotes_length (steps : List Nat) :
    ∀ idx, (walkNotes idx steps).length = steps.length := by
  induction steps with
  | nil => intro idx; rfl
  | cons s rest ih => intro idx; simp [walkNotes, ih]

theorem chooseSteps_dropLast_length (q : String) :
    (chooseSteps q).dropLast.length = 6 := by
  unfold chooseSteps
  split <;> rfl

theorem total_scale_core_length (t q : String) :
    (total_scale_core t q).length = 7 := by
  show (normTonic t :: walkNotes _ (chooseSteps q).dropLast).length = 7
  rw [List.length_cons, walkNotes_length, chooseSteps_dropLast_length]

theorem totalScale_length (key : String) : (totalScale key).length = 7 :=
  total_scale_core_length ..

theorem walkNotes_eq_walkC1 (steps : List Nat) :
    ∀ idx, walkNotes idx steps = walkC1 idx steps := by
  induction steps with
  | nil => intro idx; rfl
  | cons s rest ih => intro idx; simp [walkNotes, walkC1, ih]

theorem chooseSteps_dropLast_take (q : String) :
    (chooseSteps q).dropLast = (chooseSteps q).take 6 := by
  unfold chooseSteps
  split <;> rfl

theorem chordLabels_ok (scale : List String) (ds : List Nat)
    (h : ∀ d ∈ ds, d < scale.length) :
    chordLabels scale ds = .ok (ds.map fun d =>
      scale.getD d "" ++ (if d ∈ ([0, 3, 4] : List Nat) then "" else "m")) := by
  induction ds with
  | nil => rfl
  | cons d rest ih =>
    have hd : d < scale.length := h d (by simp)
    simp [chordLabels, pyGet_ok _ _ hd, Except.bind, Except.map,
      ih (fun x hx => h x (by simp [hx]))]

theorem getD_mod_mem {α : Type} (l : List α) (d : α) (n : Nat) (h : l ≠ []) :
    l.getD (n % l.length) d ∈ l := by
  have hlen : 0 < l.length := List.length_pos.mpr h
  have hlt : n % l.length < l.length := Nat.mod_lt _ hlen
  rw [List.getD_eq_getElem l d hlt]
  exact List.getElem_mem hlt

theorem melodyLoop_length (scale : List String) (g : Nat → Nat) :
    ∀ k pos, (melodyLoop scale g k pos).length = k := by
  intro k
  induction k with
  | zero => intro pos; rfl
  | succ k ih => intro pos; simp [melodyLoop, ih]

theorem durationChoices_sub :
    ∀ x ∈ durationChoices, x ∈ ([0.5, 1.0, 2.0] : List Rat) := by
  intro x hx
  simp only [durationChoices, List.mem_cons, List.not_mem_nil, or_false] at hx
  rcases hx with rfl | rfl | rfl | rfl <;> simp

theorem octaveChoices_str :
    ∀ o ∈ octaveChoices, toString o ∈ (["4", "5"] : List String) := by
  intro o ho
  simp only [octaveChoices, List.mem_cons, List.not_mem_nil, or_false] at ho
  rcases ho with rfl | rfl <;> decide

theorem melodyLoop_mem (scale : List String) (g : Nat → Nat) (hs : scale ≠ []) :
    ∀ k pos, ∀ e ∈ melodyLoop scale g k pos,
      (∃ p ∈ scale, ∃ o ∈ (["4", "5"] : List String), e.note = p ++ o) ∧
      e.duration ∈ ([0.5, 1.0, 2.0] : List Rat) := by
  intro k
  induction k with
  | zero => intro pos e he; simp [melodyLoop] at he
  | succ k ih =>
    intro pos e he
    rw [melodyLoop] at he
    rcases List.mem_cons.mp he with rfl | htail
    · refine ⟨⟨scale.getD (g pos % scale.length) "", getD_mod_mem scale "" _ hs,
        toString (octaveChoices.getD (g (pos + 2) % octaveChoices.length) 0), ?_, rfl⟩, ?_⟩
      · exact octaveChoices_str _ (getD_mod_mem octaveChoices 0 _ (by decide))
      · exact durationChoices_sub _ (getD_mod_mem durationChoices 0 _ (by decide))
    · exact ih (pos + 3) e htail

theorem total_scale_core_ne_nil (t q : String) : total_scale_core t q ≠ [] := by
  intro h
  have := total_scale_core_length t q
  rw [h] at this
  exact absurd this (by decide)

theorem total_scale_core_eq_scaleC1 (t q : String) (ht : t ∈ NOTES_SHARP) :
    total_scale_core t q = scaleC1 t q := by
  show normTonic t :: walkNotes (NOTES_SHARP.indexOf (normTonic t)) (chooseSteps q).dropLast
      = t :: walkC1 (NOTES_SHARP.indexOf t) ((chooseSteps q).take 6)
  rw [chooseSteps_dropLast_take, walkNotes_eq_walkC1]
  unfold normTonic
  rw [if_pos ht]

theorem scaleC1_length (t q : String) : (scaleC1 t q).length = 7 := by
  show (t :: walkC1 (NOTES_SHARP.indexOf t) ((chooseSteps q).take 6)).length = 7
  rw [List.length_cons, ← walkNotes_eq_walkC1, walkNotes_length,
    ← chooseSteps_dropLast_take, chooseSteps_dropLast_length]

/-- Claim C1: for every key whose quality token, lowercased, starts with
`"maj"`, `build_scale` uses the major step pattern `[2,2,1,2,2,2,1]`, and
for any other quality the minor pattern `[2,1,2,2,1,2,2]`; starting at the
tonic's index in the 12-note sharp-spelled pitch space it walks the first
six steps modulo 12, appending the pitch name at each step, giving a
7-element sequence with the tonic at position 0; in particular
`build_scale "C Major"` is the C-major scale and `build_scale "A Minor"`
the A-minor scale.  (`scaleC1` is the claim-side description of this
algorithm; `build_scale_core` is the code after key unpacking.) -/
theorem build_scale_step_pattern_spec :
    (∀ t ∈ NOTES_SHARP, ∀ q : String,
      build_scale_core t q = .ok (scaleC1 t q) ∧ (scaleC1 t q).length = 7 ∧
        (scaleC1 t q).head? = some t) ∧
    build_scale "C Major" = .ok ["C", "D", "E", "F", "G", "A", "B"] ∧
    build_scale "A Minor" = .ok ["A", "B", "C", "D", "E", "F", "G"] := by
  refine ⟨?_, by decide, by decide⟩
  intro t ht q
  refine ⟨?_, scaleC1_length t q, rfl⟩
  rw [build_scale_core_eq, total_scale_core_eq_scaleC1 t q ht]

/-- Witness for C1 at the concrete valid tonic `"D"` and quality `"Major"`. -/
theorem build_scale_step_pattern_spec_witness :
    "D" ∈ NOTES_SHARP ∧ build_scale_core "D" "Major" = .ok (scaleC1 "D" "Major") :=
  ⟨by decide, (build_scale_step_pattern_spec.1 "D" (by decide) "Major").1⟩

/-- Claim C4: for every valid tonic `T` of the 12-pitch-class set and
quality in `{Major, Minor}`, `build_scale "T Quality"` returns exactly 7
elements, the first being `T`. -/
theorem build_scale_valid_keys (t : String) (ht : t ∈ NOTES_SHARP)
    (q : String) (hq : q ∈ (["Major", "Minor"] : List String)) :
    build_scale (t ++ " " ++ q) = .ok (totalScale (t ++ " " ++ q)) ∧
    (totalScale (t ++ " " ++ q)).length = 7 ∧
    (totalScale (t ++ " " ++ q)).head? = some t := by
  refine ⟨build_scale_eq _, totalScale_length _, ?_⟩
  fin_cases ht <;> fin_cases hq <;> decide

/-- Witness for C4 at `"G Minor"`. -/
theorem build_scale_valid_keys_witness :
    "G" ∈ NOTES_SHARP ∧ "Minor" ∈ (["Major", "Minor"] : List String) ∧
      (totalScale ("G" ++ " " ++ "Minor")).head? = some "G" :=
  ⟨by decide, by decide,
   (build_scale_valid_keys "G" (by decide) "Minor" (by decide)).2.2⟩

/-- Claim C5: a tonic token outside the 12 sharp-spelled pitch-class names
is replaced with `"C"`, so for every quality the scale equals the one built
from tonic `"C"`; in particular `build_scale "Z Major"` behaves identically
to `build_scale "C Major"`. -/
theorem build_scale_invalid_tonic (t q : String) (ht : t ∉ NOTES_SHARP) :
    build_scale_core t q = build_scale_core "C" q ∧
    build_scale "Z Major" = build_scale "C Major" := by
  constructor
  · unfold build_scale_core normTonic
    rw [if_neg ht, if_pos (by decide : ("C" : String) ∈ NOTES_SHARP)]
  · decide

/-- Witness for C5 at tonic `"Z"`, quality `"Major"`. -/
theorem build_scale_invalid_tonic_witness :
    "Z" ∉ NOTES_SHARP ∧ build_scale_core "Z" "Major" = build_scale_core "C" "Major" :=
  ⟨by decide, (build_scale_invalid_tonic "Z" "Major" (by decide)).1⟩

/-- Counterexample to claim C6: `"Dorian"` is an invalid quality (neither
`"Major"` nor `"Minor"`), yet `build_scale "C Dorian"` is the minor-pattern
scale on C, not `build_scale "C Major"`: the code defaults a non-`"maj"`
quality to the minor pattern, not to Major. -/
theorem build_scale_invalid_quality_cex :
    build_scale "C Dorian" = .ok ["C", "D", "D#", "F", "G", "G#", "A#"] ∧
    build_scale "C Major" = .ok ["C", "D", "E", "F", "G", "A", "B"] ∧
    build_scale "C Dorian" ≠ build_scale "C Major" :=
  ⟨by decide, by decide, by decide⟩

/-- Amended C6: the quality decides the pattern solely by the
case-insensitive prefix test on `"maj"`: a quality failing the test
(including every invalid quality not starting with `"maj"`) behaves as
`"Minor"`, and a quality passing it behaves as `"Major"`. -/
theorem build_scale_quality_fallback (t q : String) :
    (pyStartsWith (pyLower q) "maj" = false →
      build_scale_core t q = build_scale_core t "Minor") ∧
    (pyStartsWith (pyLower q) "maj" = true →
      build_scale_core t q = build_scale_core t "Major") := by
  constructor
  · intro hq
    unfold build_scale_core chooseSteps
    rw [hq, (by decide : pyStartsWith (pyLower "Minor") "maj" = false)]
  · intro hq
    unfold build_scale_core chooseSteps
    rw [hq, (by decide : pyStartsWith (pyLower "Major") "maj" = true)]

/-- Witness for amended C6 at tonic `"C"` and invalid quality `"Dorian"`. -/
theorem build_scale_quality_fallback_witness :
    build_scale_core "C" "Dorian" = build_scale_core "C" "Minor" :=
  (build_scale_quality_fallback "C" "Dorian").1 (by decide)

/-- Claim C7: `build_scale` terminates normally on every string input and
always returns a full 7-element scale; no error branch of the embedding
(`ValueError` of `list.index`, `IndexError` of subscripting, the caught
split unpacking) is ever reached. -/
theorem build_scale_never_fails (key : String) :
    build_scale key = .ok (totalScale key) ∧ (totalScale key).length = 7 ∧
      ∀ e : String, build_scale key ≠ .error e := by
  refine ⟨build_scale_eq key, totalScale_length key, ?_⟩
  intro e h
  rw [build_scale_eq key] at h
  exact Except.noConfusion h

/-- Witness for C7 at the malformed key `"not a key at all"`. -/
theorem build_scale_never_fails_witness :
    build_scale "not a key at all" = .ok (totalScale "not a key at all") :=
  (build_scale_never_fails "not a key at all").1

/-- Claim C10: a key that does not split into exactly two whitespace
tokens makes the whole string the tonic and the quality `"Major"`; a lone
valid pitch name yields its major scale, while the empty string and a
three-token key fall back to the C-major scale. -/
theorem build_scale_token_fallback :
    (∀ key : String, (pySplit key).length ≠ 2 →
      build_scale key = build_scale_core key "Major") ∧
    build_scale "E" = .ok ["E", "F#", "G#", "A", "B", "C#", "D#"] ∧
    build_scale "" = .ok ["C", "D", "E", "F", "G", "A", "B"] ∧
    build_scale "C# Minor 7" = .ok ["C", "D", "E", "F", "G", "A", "B"] := by
  refine ⟨?_, by decide, by decide, by decide⟩
  intro key hk
  unfold build_scale parseKey
  rcases h : pySplit key with _ | ⟨a, _ | ⟨b, _ | ⟨c, rest⟩⟩⟩
  · rfl
  · rfl
  · exact absurd (by rw [h]; rfl) hk
  · rfl

/-- Witness for C10 at the empty key. -/
theorem build_scale_token_fallback_witness :
    (pySplit "").length ≠ 2 ∧ build_scale "" = build_scale_core "" "Major" :=
  ⟨by decide, build_scale_token_fallback.1 "" (by decide)⟩

/-- Claim C2: `generate_chords key` echoes the input key and returns
exactly 4 chord labels, the labels at degree indices `[0, 5, 3, 4]` of
`build_scale key`, plain for a degree in `{0, 3, 4}` and suffixed `"m"`
otherwise; in particular the progression for `"C Major"` is
`["C", "Am", "F", "G"]`.  (`totalScale` is the always-returned value of
`build_scale`, by `build_scale_eq`.) -/
theorem generate_chords_spec (key : String) :
    generate_chords key = .ok ⟨key, ([0, 5, 3, 4] : List Nat).map fun d =>
      (totalScale key).getD d "" ++ (if d ∈ ([0, 3, 4] : List Nat) then "" else "m")⟩ ∧
    (([0, 5, 3, 4] : List Nat).map fun d =>
      (totalScale key).getD d "" ++ (if d ∈ ([0, 3, 4] : List Nat) then "" else "m")).length = 4 ∧
    generate_chords "C Major" = .ok ⟨"C Major", ["C", "Am", "F", "G"]⟩ := by
  refine ⟨?_, by simp, by decide⟩
  show (build_scale key).bind _ = _
  rw [build_scale_eq]
  show (chordLabels (totalScale key) [0, 5, 3, 4]).map _ = _
  rw [chordLabels_ok _ _ ?_]
  · rfl
  · intro d hd
    rw [totalScale_length]
    fin_cases hd <;> norm_num

/-- Claim C3: `generate_melody key bars bpm` echoes key and bpm and yields
exactly `bars * 4` note events; every note is a scale member followed by an
octave suffix `"4"` or `"5"`, and every duration lies in
`{0.5, 1.0, 2.0}`.  Instantiating at `key = "C Major"`, `bars = 1`,
`bpm = 90` gives the claim's concrete case: exactly 4 entries with
pitch-class prefixes in the C-major scale. -/
theorem generate_melody_spec (key : String) (bars bpm : Nat) (g : Nat → Nat) :
    generate_melody key bars bpm g =
      .ok ⟨key, bpm, melodyLoop (totalScale key) g (bars * 4) 0⟩ ∧
    (melodyLoop (totalScale key) g (bars * 4) 0).length = bars * 4 ∧
    build_scale key = .ok (totalScale key) ∧
    ∀ e ∈ melodyLoop (totalScale key) g (bars * 4) 0,
      (∃ p ∈ totalScale key, ∃ o ∈ (["4", "5"] : List String), e.note = p ++ o) ∧
      e.duration ∈ ([0.5, 1.0, 2.0] : List Rat) := by
  refine ⟨?_, melodyLoop_length _ _ _ _, build_scale_eq key,
    melodyLoop_mem _ _ (total_scale_core_ne_nil _ _) _ _⟩
  show (build_scale key).map _ = _
  rw [build_scale_eq]
  rfl

/-- Witness for C3 at the claim's concrete case (`"C Major"`, one bar,
90 bpm, the all-zero draw stream). -/
theorem generate_melody_spec_witness :
    (melodyLoop (totalScale "C Major") (fun _ => 0) (1 * 4) 0).length = 1 * 4 :=
  (generate_melody_spec "C Major" 1 90 (fun _ => 0)).2.1

/-- Claim C8: with the random source modelled as an explicit draw stream,
two calls of `generate_melody` with identical key, bars, bpm and an
identically seeded stream produce identical output, while two calls with
different streams can differ. -/
theorem generate_melody_seed_determinism :
    (∀ (key : String) (bars bpm : Nat) (g₁ g₂ : Nat → Nat), (∀ n, g₁ n = g₂ n) →
      generate_melody key bars bpm g₁ = generate_melody key bars bpm g₂) ∧
    generate_melody "C Major" 1 90 (fun _ => 0) ≠
      generate_melody "C Major" 1 90 (fun _ => 1) := by
  constructor
  · intro key bars bpm g₁ g₂ hg
    rw [funext hg]
  · intro h
    have h0 : (generate_melody "C Major" 1 90 (fun _ => 0)).map
        (fun r => r.melody.map NoteEvent.note) = .ok ["C4", "C4", "C4", "C4"] := rfl
    have h1 : (generate_melody "C Major" 1 90 (fun _ => 1)).map
        (fun r => r.melody.map NoteEvent.note) = .ok ["D5", "D5", "D5", "D5"] := rfl
    rw [h, h1] at h0
    exact absurd (Except.ok.inj h0) (by decide)

/-- Witness for C8: two identical streams give identical output. -/
theorem generate_melody_seed_determinism_witness :
    generate_melody "C Major" 2 120 (fun n => n) =
      generate_melody "C Major" 2 120 (fun n => n) :=
  generate_melody_seed_determinism.1 "C Major" 2 120 (fun n => n) (fun n => n)
    (fun _ => rfl)

/-- Claim C9: `bpm` is pass-through only: with the same key, bars and draw
stream, any two bpm values produce the very same melody, and each response
carries its bpm argument unchanged. -/
theorem generate_melody_bpm_passthrough (key : String) (bars bpm₁ bpm₂ : Nat)
    (g : Nat → Nat) :
    generate_melody key bars bpm₁ g =
      .ok ⟨key, bpm₁, melodyLoop (totalScale key) g (bars * 4) 0⟩ ∧
    generate_melody key bars bpm₂ g =
      .ok ⟨key, bpm₂, melodyLoop (totalScale key) g (bars * 4) 0⟩ := by
  constructor <;> (show (build_scale key).map _ = _; rw [build_scale_eq]; rfl)

